import Mathlib

/-!
Verification of the layout and rendering engine of the ComfyUI node pack
(`image_grid.py`, `text_label.py`).

Shallow embedding conventions:
* a torch image tensor of shape `(B, H, W, C)` is a `Batch`: the four extents
  plus a total pixel function (indices outside the extents are irrelevant);
* Python `int` arithmetic is `Nat`/`Int`; Python floats are embedded as exact
  rationals (`math.ceil(math.sqrt ...)` and `math.ceil(a / b)` are modelled by
  their exact counterparts `ceilSqrt` and `ceilDivNat`);
* Python `//` on integers is `Int.fdiv` (floor division), Python `int(x)` on a
  float is `ratTrunc` (truncation toward zero), numpy `.round()` is
  `roundHalfEven`;
* a Python function that can raise is embedded with an `Option` result,
  `none` standing for a raised exception;
* PIL raster primitives (text measurement, rounded-rectangle fill, multi-line
  text drawing, alpha compositing, truetype file loading) are external library
  collaborators; they are modelled as injected functions (`RasterLib`) whose
  types record what PIL guarantees structurally: they transform 8-bit RGBA
  pixel maps and never change the image extents.
-/

namespace NodePack

/-! ### Numeric helpers (Python / numpy semantics) -/

/-- Python `int(x)` on a float: truncation toward zero. -/
def ratTrunc (q : ℚ) : ℤ := if q < 0 then ⌈q⌉ else ⌊q⌋

/-- numpy `.round()`: round half to even. -/
def roundHalfEven (q : ℚ) : ℤ :=
  if q - ⌊q⌋ < 1/2 then ⌊q⌋
  else if 1/2 < q - ⌊q⌋ then ⌊q⌋ + 1
  else if ⌊q⌋ % 2 = 0 then ⌊q⌋ else ⌊q⌋ + 1

/-- Exact value of Python `math.ceil(math.sqrt n)` for a natural number `n`. -/
def ceilSqrt (n : ℕ) : ℕ :=
  if Nat.sqrt n * Nat.sqrt n = n then Nat.sqrt n else Nat.sqrt n + 1

/-- Exact value of Python `math.ceil(a / b)` for naturals (`b > 0`). -/
def ceilDivNat (a b : ℕ) : ℕ := (a + b - 1) / b

/-! ### Image data model

`Batch` mirrors a torch tensor of shape `(n, h, w, c)` as used by the nodes:
ComfyUI `IMAGE` values are 4-dimensional float tensors. -/

structure Batch where
  n : ℕ
  h : ℕ
  w : ℕ
  c : ℕ
  pix : ℕ → ℕ → ℕ → ℕ → ℚ

/-- `torch.zeros((n, h, w, c))`. -/
def torchZeros (n h w c : ℕ) : Batch :=
  { n := n, h := h, w := w, c := c, pix := fun _ _ _ _ => 0 }

/-! ### image_grid.py : grid layout arithmetic (lines 99-110) -/

/-- Lines 100-106: number of grid columns. -/
def gridCols (columns batch_size : ℕ) : ℕ :=
  if 0 < columns then columns else ceilSqrt batch_size

/-- Lines 102/106: `rows = math.ceil(batch_size / cols)` (same formula in both
branches of the source). -/
def gridRows (columns batch_size : ℕ) : ℕ :=
  ceilDivNat batch_size (gridCols columns batch_size)

/-- Line 109: `grid_height = rows * target_height + (rows - 1) * padding`. -/
def gridHeight (columns batch_size target_height padding : ℕ) : ℕ :=
  gridRows columns batch_size * target_height +
    (gridRows columns batch_size - 1) * padding

/-- Line 110: `grid_width = cols * target_width + (cols - 1) * padding`. -/
def gridWidth (columns batch_size target_width padding : ℕ) : ℕ :=
  gridCols columns batch_size * target_width +
    (gridCols columns batch_size - 1) * padding

/-! ### image_grid.py : cell placement arithmetic (lines 120-127) -/

/-- Line 121: `row = idx // cols`. -/
def cellRow (cols idx : ℕ) : ℕ := idx / cols

/-- Line 122: `col = idx % cols`. -/
def cellCol (cols idx : ℕ) : ℕ := idx % cols

/-- Line 124: `y_start = row * (target_height + padding)`. -/
def yStart (target_height padding cols idx : ℕ) : ℕ :=
  cellRow cols idx * (target_height + padding)

/-- Line 126: `x_start = col * (target_width + padding)`. -/
def xStart (target_width padding cols idx : ℕ) : ℕ :=
  cellCol cols idx * (target_width + padding)

/-- The destination rectangle of image `idx` (the slice
`grid[0, y_start:y_start+th, x_start:x_start+tw, :]`) contains the point
`(y, x)`. -/
def inCell (target_height target_width padding cols idx y x : ℕ) : Prop :=
  yStart target_height padding cols idx ≤ y ∧
  y < yStart target_height padding cols idx + target_height ∧
  xStart target_width padding cols idx ≤ x ∧
  x < xStart target_width padding cols idx + target_width

/-- Line 129: the slice assignment
`grid[0, y_start:y_end, x_start:x_end, :] = final_images[idx]`. -/
def writeCell (final : Batch) (target_height target_width padding cols : ℕ)
    (grid : Batch) (idx : ℕ) : Batch :=
  { grid with pix := fun b y x k =>
      let ys := yStart target_height padding cols idx
      let xs := xStart target_width padding cols idx
      if b = 0 ∧ ys ≤ y ∧ y < ys + target_height ∧ xs ≤ x ∧ x < xs + target_width
      then final.pix idx (y - ys) (x - xs) k
      else grid.pix b y x k }

/-- Lines 120-129: `for idx in range(batch_size): ...` placement loop. -/
def placeImages (final : Batch) (target_height target_width padding cols batch_size : ℕ)
    (grid : Batch) : Batch :=
  (List.range batch_size).foldl (writeCell final target_height target_width padding cols) grid

/-! ### image_grid.py : batch normalisation (lines 69-94)

`F.interpolate(mode="bilinear", align_corners=False)` is torch library code;
it is embedded by its documented sampling rule: the source coordinate of
output pixel `i` is `(i + 1/2) * in/out - 1/2`, clamped below at `0`, and the
four neighbouring samples (indices clamped to the valid range) are averaged
with the fractional weights. Only its shape behaviour is used by the claims. -/

/-- Source coordinate of an output sample, `align_corners=False`. -/
def srcCoord (outSize inSize i : ℕ) : ℚ :=
  max (((i : ℚ) + 1/2) * inSize / outSize - 1/2) 0

/-- Bilinear resize of every image of the batch to `(outH, outW)`
(`F.interpolate` bracketed by the two permutes, lines 80-88). -/
def interpolateBilinear (b : Batch) (outH outW : ℕ) : Batch :=
  { n := b.n, h := outH, w := outW, c := b.c,
    pix := fun idx y x k =>
      let sy := srcCoord outH b.h y
      let sx := srcCoord outW b.w x
      let y0 := (⌊sy⌋).toNat
      let x0 := (⌊sx⌋).toNat
      let y1 := if y0 + 1 < b.h then y0 + 1 else y0
      let x1 := if x0 + 1 < b.w then x0 + 1 else x0
      let ly := sy - y0
      let lx := sx - x0
      (1 - ly) * ((1 - lx) * b.pix idx y0 x0 k + lx * b.pix idx y0 x1 k) +
        ly * ((1 - lx) * b.pix idx y1 x0 k + lx * b.pix idx y1 x1 k) }

/-- Lines 76-90: resize exactly the batches whose per-image height or width
differs from the reference dimensions taken from the first batch. -/
def normalizeBatches (target_height target_width : ℕ) (all_images : List Batch) :
    List Batch :=
  all_images.map fun img_batch =>
    if img_batch.h ≠ target_height ∨ img_batch.w ≠ target_width
    then interpolateBilinear img_batch target_height target_width
    else img_batch

/-- Pixel lookup of `torch.cat(processed_images, dim=0)`: route a batch index
to the owning batch, in list order. -/
def concatPix : List Batch → ℕ → ℕ → ℕ → ℕ → ℚ
  | [], _, _, _, _ => 0
  | b :: rest, idx, y, x, k =>
      if idx < b.n then b.pix idx y x k else concatPix rest (idx - b.n) y x k

/-- Line 93: `torch.cat(processed_images, dim=0)`. -/
def concatBatches (bs : List Batch) : Batch :=
  { n := (bs.map Batch.n).sum,
    h := (bs.head?.elim 0 Batch.h),
    w := (bs.head?.elim 0 Batch.w),
    c := (bs.head?.elim 0 Batch.c),
    pix := fun idx y x k => concatPix bs idx y x k }

/-- Number of images stored before the batch at position `i` of the list. -/
def nOffset (bs : List Batch) (i : ℕ) : ℕ := ((bs.take i).map Batch.n).sum

/-! ### image_grid.py : ImageGrid.create_grid (lines 38-131) -/

/-- `ImageGrid.create_grid`.  The six optional image inputs mirror the
source signature; `none` is a missing input. -/
def create_grid (columns padding : ℕ)
    (image_1 image_2 image_3 image_4 image_5 image_6 : Option Batch) : Batch :=
  match [image_1, image_2, image_3, image_4, image_5, image_6].filterMap id with
  | [] => torchZeros 1 512 512 3
  | first :: rest =>
    let target_height := first.h
    let target_width := first.w
    let channels := first.c
    let processed_images := normalizeBatches target_height target_width (first :: rest)
    let final_images := concatBatches processed_images
    let batch_size := final_images.n
    if batch_size = 0 then torchZeros 1 target_height target_width channels
    else
      placeImages final_images target_height target_width padding
        (gridCols columns batch_size) batch_size
        (torchZeros 1 (gridHeight columns batch_size target_height padding)
          (gridWidth columns batch_size target_width padding) channels)

/-! ### Arithmetic lemmas about the grid layout -/

lemma ceilSqrt_pos {n : ℕ} (hn : 1 ≤ n) : 0 < ceilSqrt n := by
  unfold ceilSqrt
  split
  · rename_i h
    rcases Nat.eq_zero_or_pos (Nat.sqrt n) with h0 | h1
    · rw [h0] at h; omega
    · exact h1
  · omega

lemma gridCols_pos (columns : ℕ) {batch_size : ℕ} (hbs : 1 ≤ batch_size) :
    0 < gridCols columns batch_size := by
  unfold gridCols
  split
  · assumption
  · exact ceilSqrt_pos hbs

lemma ceilSqrt_eq_ceil_sqrt (n : ℕ) : ceilSqrt n = ⌈Real.sqrt n⌉₊ := by
  unfold ceilSqrt
  rcases eq_or_ne (Nat.sqrt n * Nat.sqrt n) n with hsq | hsq
  · rw [if_pos hsq]
    have h2 : (n : ℝ) = (Nat.sqrt n : ℝ) ^ 2 := by
      have : ((Nat.sqrt n * Nat.sqrt n : ℕ) : ℝ) = (n : ℝ) := by exact_mod_cast hsq
      push_cast at this
      nlinarith [this]
    have h : Real.sqrt n = (Nat.sqrt n : ℝ) := by
      rw [h2, Real.sqrt_sq (by positivity)]
    rw [h, Nat.ceil_natCast]
  · rw [if_neg hsq]
    have hlow : (Nat.sqrt n : ℝ) < Real.sqrt n := by
      rw [Real.lt_sqrt (by positivity)]
      have h1 : Nat.sqrt n * Nat.sqrt n ≤ n := Nat.sqrt_le n
      have h2 : Nat.sqrt n * Nat.sqrt n < n := lt_of_le_of_ne h1 hsq
      have : ((Nat.sqrt n * Nat.sqrt n : ℕ) : ℝ) < (n : ℝ) := by exact_mod_cast h2
      calc (Nat.sqrt n : ℝ) ^ 2 = ((Nat.sqrt n * Nat.sqrt n : ℕ) : ℝ) := by push_cast; ring
        _ < n := this
    have hhigh : Real.sqrt n < (Nat.sqrt n : ℝ) + 1 := by
      rw [Real.sqrt_lt' (by positivity)]
      have h3 : n < (Nat.sqrt n + 1) * (Nat.sqrt n + 1) := Nat.lt_succ_sqrt n
      have : (n : ℝ) < (((Nat.sqrt n + 1) * (Nat.sqrt n + 1) : ℕ) : ℝ) := by exact_mod_cast h3
      calc (n : ℝ) < (((Nat.sqrt n + 1) * (Nat.sqrt n + 1) : ℕ) : ℝ) := this
        _ = ((Nat.sqrt n : ℝ) + 1) ^ 2 := by push_cast; ring
    symm
    rw [Nat.ceil_eq_iff (by omega)]
    constructor
    · simpa using hlow
    · push_cast
      exact le_of_lt hhigh

lemma ceilDivNat_eq_ceil {a b : ℕ} (hb : 0 < b) :
    ceilDivNat a b = ⌈(a : ℚ) / b⌉₊ := by
  rcases Nat.eq_zero_or_pos a with ha | ha
  · subst ha
    have h1 : ceilDivNat 0 b = 0 := by
      unfold ceilDivNat
      exact Nat.div_eq_of_lt (by omega)
    rw [h1]
    simp
  · have hm : 1 ≤ ceilDivNat a b := by
      unfold ceilDivNat
      rw [Nat.le_div_iff_mul_le hb]
      omega
    set m := ceilDivNat a b with hmdef
    have hmod : b * ((a + b - 1) / b) + (a + b - 1) % b = a + b - 1 :=
      Nat.div_add_mod (a + b - 1) b
    have hmod2 : (a + b - 1) % b < b := Nat.mod_lt _ hb
    have hm' : b * m + (a + b - 1) % b = a + b - 1 := by
      rw [hmdef]; unfold ceilDivNat; exact hmod
    have hab : 1 ≤ a + b := by omega
    have hmz : (b : ℤ) * m + ((a + b - 1) % b : ℕ) = (a : ℤ) + b - 1 := by
      zify [hab] at hm'
      exact_mod_cast hm'
    have hmod2z : (((a + b - 1) % b : ℕ) : ℤ) < (b : ℤ) := by exact_mod_cast hmod2
    have hub : a ≤ m * b := by
      zify
      linarith [hmz, hmod2z]
    have hlb : (m - 1) * b < a := by
      zify [hm]
      have haz : (1 : ℤ) ≤ (a : ℤ) := by exact_mod_cast ha
      linarith [hmz, hmod2z, haz,
        Int.natCast_nonneg ((a + b - 1) % b)]
    symm
    rw [Nat.ceil_eq_iff (by omega)]
    have hbq : 0 < (b : ℚ) := by exact_mod_cast hb
    constructor
    · rw [lt_div_iff₀ hbq]
      exact_mod_cast hlb
    · rw [div_le_iff₀ hbq]
      exact_mod_cast hub

lemma le_ceilDivNat_mul {a b : ℕ} (hb : 0 < b) : a ≤ ceilDivNat a b * b := by
  unfold ceilDivNat
  have hmod : b * ((a + b - 1) / b) + (a + b - 1) % b = a + b - 1 :=
    Nat.div_add_mod (a + b - 1) b
  have hmod2 : (a + b - 1) % b < b := Nat.mod_lt _ hb
  have hab : 1 ≤ a + b := by omega
  have hmz : (b : ℤ) * ((a + b - 1) / b : ℕ) + ((a + b - 1) % b : ℕ) = (a : ℤ) + b - 1 := by
    zify [hab] at hmod
    exact_mod_cast hmod
  have hmod2z : (((a + b - 1) % b : ℕ) : ℤ) < (b : ℤ) := by exact_mod_cast hmod2
  have hz : (a : ℤ) ≤ (((a + b - 1) / b : ℕ) : ℤ) * (b : ℤ) := by linarith [hmz, hmod2z]
  exact_mod_cast hz

lemma batch_le_rows_mul_cols (columns : ℕ) {batch_size : ℕ} (hbs : 1 ≤ batch_size) :
    batch_size ≤ gridRows columns batch_size * gridCols columns batch_size := by
  unfold gridRows
  exact le_ceilDivNat_mul (gridCols_pos columns hbs)

/-! ### Cell geometry lemmas -/

lemma cell_overlap_false {a b sz p x : ℕ} (hab : a < b)
    (h2 : x < a * (sz + p) + sz) (h3 : b * (sz + p) ≤ x) : False := by
  have h5 : (a + 1) * (sz + p) ≤ b * (sz + p) := mul_le_mul_right' (by omega) _
  have h6 : (a + 1) * (sz + p) = a * (sz + p) + (sz + p) := by ring
  linarith [h2, h3, h5, h6]

lemma cells_disjoint {target_height target_width padding cols idx jdx : ℕ}
    (hcols : 0 < cols) (hne : idx ≠ jdx) (y x : ℕ) :
    ¬(inCell target_height target_width padding cols idx y x ∧
      inCell target_height target_width padding cols jdx y x) := by
  rintro ⟨⟨hy1, hy2, hx1, hx2⟩, hy1', hy2', hx1', hx2'⟩
  unfold yStart xStart cellRow cellCol at *
  rcases eq_or_ne (idx / cols) (jdx / cols) with hr | hr
  · rcases eq_or_ne (idx % cols) (jdx % cols) with hc | hc
    · apply hne
      have h1 := Nat.div_add_mod idx cols
      have h2 := Nat.div_add_mod jdx cols
      rw [hr, hc] at h1
      exact h1.symm.trans h2
    · rcases Nat.lt_or_ge (idx % cols) (jdx % cols) with hlt | hge
      · exact cell_overlap_false hlt hx2 hx1'
      · exact cell_overlap_false (lt_of_le_of_ne hge (Ne.symm hc)) hx2' hx1
  · rcases Nat.lt_or_ge (idx / cols) (jdx / cols) with hlt | hge
    · exact cell_overlap_false hlt hy2 hy1'
    · exact cell_overlap_false (lt_of_le_of_ne hge (Ne.symm hr)) hy2' hy1

lemma cell_fits {rows sz p i : ℕ} (hi : i < rows) :
    i * (sz + p) + sz ≤ rows * sz + (rows - 1) * p := by
  obtain ⟨r, rfl⟩ : ∃ r, rows = r + 1 := ⟨rows - 1, by omega⟩
  have h1 : i ≤ r := by omega
  have h2 : i * (sz + p) ≤ r * (sz + p) := mul_le_mul_right' h1 _
  have h3 : (r + 1) * sz + (r + 1 - 1) * p = r * (sz + p) + sz := by
    simp only [Nat.add_sub_cancel]
    ring
  linarith [h2, h3]

lemma cell_in_canvas (columns padding batch_size target_height target_width idx : ℕ)
    (hbs : 1 ≤ batch_size) (hidx : idx < batch_size) :
    yStart target_height padding (gridCols columns batch_size) idx + target_height ≤
      gridHeight columns batch_size target_height padding ∧
    xStart target_width padding (gridCols columns batch_size) idx + target_width ≤
      gridWidth columns batch_size target_width padding := by
  have hcols : 0 < gridCols columns batch_size := gridCols_pos columns hbs
  have hrc : batch_size ≤ gridRows columns batch_size * gridCols columns batch_size :=
    batch_le_rows_mul_cols columns hbs
  have hrow : cellRow (gridCols columns batch_size) idx < gridRows columns batch_size := by
    unfold cellRow
    rw [Nat.div_lt_iff_lt_mul hcols]
    exact lt_of_lt_of_le hidx hrc
  have hcol : cellCol (gridCols columns batch_size) idx < gridCols columns batch_size :=
    Nat.mod_lt _ hcols
  exact ⟨cell_fits hrow, cell_fits hcol⟩

lemma placeImages_pix {final grid0 : Batch} {target_height target_width padding cols : ℕ}
    (hcols : 0 < cols) :
    ∀ {batch_size idx dy dx k : ℕ}, idx < batch_size → dy < target_height → dx < target_width →
      (placeImages final target_height target_width padding cols batch_size grid0).pix 0
          (yStart target_height padding cols idx + dy)
          (xStart target_width padding cols idx + dx) k =
        final.pix idx dy dx k := by
  intro batch_size
  induction batch_size with
  | zero => intro idx dy dx k h _ _; omega
  | succ n ih =>
    intro idx dy dx k hidx hdy hdx
    unfold placeImages at ih ⊢
    rw [List.range_succ, List.foldl_append, List.foldl_cons, List.foldl_nil]
    rcases eq_or_ne idx n with rfl | hne
    · simp only [writeCell]
      rw [if_pos]
      · congr 1 <;> omega
      · exact ⟨by trivial, Nat.le_add_right _ _, by omega, Nat.le_add_right _ _, by omega⟩
    · have hmiss : ¬(inCell target_height target_width padding cols n
          (yStart target_height padding cols idx + dy)
          (xStart target_width padding cols idx + dx)) := by
        intro hin
        exact cells_disjoint hcols hne
          (yStart target_height padding cols idx + dy)
          (xStart target_width padding cols idx + dx)
          ⟨⟨Nat.le_add_right _ _, by omega, Nat.le_add_right _ _, by omega⟩, hin⟩
      simp only [writeCell]
      rw [if_neg]
      · exact ih (by omega) hdy hdx
      · intro hcond
        exact hmiss ⟨hcond.2.1, hcond.2.2.1, hcond.2.2.2.1, hcond.2.2.2.2⟩

/-- Claim C1: for every `batch_size ≥ 1` and `padding ≥ 0`, the layout stage
uses `cols = columns` when `columns > 0` and `cols = ceil(sqrt(batch_size))`
when `columns = 0`, with `rows = ceil(batch_size / cols)` in both branches,
and allocates a canvas of width `cols * w + (cols - 1) * padding` and height
`rows * h + (rows - 1) * padding`. -/
theorem C1_grid_layout (columns padding batch_size target_width target_height : ℕ)
    (hbs : 1 ≤ batch_size) :
    (0 < columns → gridCols columns batch_size = columns) ∧
    (columns = 0 → gridCols columns batch_size = ⌈Real.sqrt batch_size⌉₊) ∧
    gridRows columns batch_size = ⌈(batch_size : ℚ) / gridCols columns batch_size⌉₊ ∧
    gridWidth columns batch_size target_width padding =
      gridCols columns batch_size * target_width +
        (gridCols columns batch_size - 1) * padding ∧
    gridHeight columns batch_size target_height padding =
      gridRows columns batch_size * target_height +
        (gridRows columns batch_size - 1) * padding := by
  refine ⟨?_, ?_, ?_, rfl, rfl⟩
  · intro h
    unfold gridCols
    rw [if_pos h]
  · intro h
    subst h
    unfold gridCols
    rw [if_neg (by omega)]
    exact ceilSqrt_eq_ceil_sqrt _
  · unfold gridRows
    exact ceilDivNat_eq_ceil (gridCols_pos columns hbs)

theorem C1_grid_layout_witness :
    (0 < 0 → gridCols 0 10 = 0) ∧
    (0 = 0 → gridCols 0 10 = ⌈Real.sqrt 10⌉₊) ∧
    gridRows 0 10 = ⌈(10 : ℚ) / gridCols 0 10⌉₊ ∧
    gridWidth 0 10 7 2 = gridCols 0 10 * 7 + (gridCols 0 10 - 1) * 2 ∧
    gridHeight 0 10 5 2 = gridRows 0 10 * 5 + (gridRows 0 10 - 1) * 2 :=
  C1_grid_layout 0 2 10 7 5 (by omega)

/-- Sanity check of the testable property from the spec: `batch_size = 10`
in auto mode gives `cols = 4`, `rows = 3`. -/
example : gridCols 0 10 = 4 ∧ gridRows 0 10 = 3 := by
  norm_num [gridCols, gridRows, ceilSqrt, ceilDivNat, Nat.sqrt]

/-- Claim C2: for `batch_size ≥ 1`, any `padding` and every
`idx < batch_size`, image `idx` is placed with top-left corner
`(col * (w + padding), row * (h + padding))` where `row = idx / cols` and
`col = idx % cols`; the destination rectangle lies inside the canvas; the
rectangles of two distinct in-range indices are disjoint; and the placement
loop stores pixel `(dy, dx)` of image `idx` at exactly that offset of the
canvas. -/
theorem C2_grid_placement (columns padding batch_size target_height target_width idx jdx : ℕ)
    (hbs : 1 ≤ batch_size) (hidx : idx < batch_size) :
    yStart target_height padding (gridCols columns batch_size) idx =
      (idx / gridCols columns batch_size) * (target_height + padding) ∧
    xStart target_width padding (gridCols columns batch_size) idx =
      (idx % gridCols columns batch_size) * (target_width + padding) ∧
    yStart target_height padding (gridCols columns batch_size) idx + target_height ≤
      gridHeight columns batch_size target_height padding ∧
    xStart target_width padding (gridCols columns batch_size) idx + target_width ≤
      gridWidth columns batch_size target_width padding ∧
    (jdx < batch_size → idx ≠ jdx → ∀ y x : ℕ,
      ¬(inCell target_height target_width padding (gridCols columns batch_size) idx y x ∧
        inCell target_height target_width padding (gridCols columns batch_size) jdx y x)) ∧
    (∀ (final grid0 : Batch) (dy dx k : ℕ), dy < target_height → dx < target_width →
      (placeImages final target_height target_width padding (gridCols columns batch_size)
          batch_size grid0).pix 0
          (yStart target_height padding (gridCols columns batch_size) idx + dy)
          (xStart target_width padding (gridCols columns batch_size) idx + dx) k =
        final.pix idx dy dx k) := by
  have hcols : 0 < gridCols columns batch_size := gridCols_pos columns hbs
  obtain ⟨hY, hX⟩ :=
    cell_in_canvas columns padding batch_size target_height target_width idx hbs hidx
  refine ⟨rfl, rfl, hY, hX, ?_, ?_⟩
  · intro _ hne y x
    exact cells_disjoint hcols hne y x
  · intro final grid0 dy dx k hdy hdx
    exact placeImages_pix hcols hidx hdy hdx

theorem C2_grid_placement_witness :
    yStart 4 3 (gridCols 2 5) 3 = (3 / gridCols 2 5) * (4 + 3) ∧
    xStart 6 3 (gridCols 2 5) 3 = (3 % gridCols 2 5) * (6 + 3) ∧
    yStart 4 3 (gridCols 2 5) 3 + 4 ≤ gridHeight 2 5 4 3 ∧
    xStart 6 3 (gridCols 2 5) 3 + 6 ≤ gridWidth 2 5 6 3 ∧
    (1 < 5 → 3 ≠ 1 → ∀ y x : ℕ,
      ¬(inCell 4 6 3 (gridCols 2 5) 3 y x ∧ inCell 4 6 3 (gridCols 2 5) 1 y x)) ∧
    (∀ (final grid0 : Batch) (dy dx k : ℕ), dy < 4 → dx < 6 →
      (placeImages final 4 6 3 (gridCols 2 5) 5 grid0).pix 0
          (yStart 4 3 (gridCols 2 5) 3 + dy) (xStart 6 3 (gridCols 2 5) 3 + dx) k =
        final.pix 3 dy dx k) :=
  C2_grid_placement 2 3 5 4 6 3 1 (by decide) (by decide)

/-- The per-index parts of claim C2 also hold for a single-image grid. -/
example :
    yStart 4 3 (gridCols 0 1) 0 = (0 / gridCols 0 1) * (4 + 3) ∧
    yStart 4 3 (gridCols 0 1) 0 + 4 ≤ gridHeight 0 1 4 3 ∧
    xStart 6 3 (gridCols 0 1) 0 + 6 ≤ gridWidth 0 1 6 3 :=
  have h := C2_grid_placement 0 3 1 4 6 0 0 (by decide) (by decide)
  ⟨h.1, h.2.2.1, h.2.2.2.1⟩

/-! ### Normalisation and concatenation lemmas -/

lemma interpolateBilinear_n (b : Batch) (outH outW : ℕ) :
    (interpolateBilinear b outH outW).n = b.n := rfl

lemma normalizeBatches_map_n (target_height target_width : ℕ) (bs : List Batch) :
    (normalizeBatches target_height target_width bs).map Batch.n = bs.map Batch.n := by
  unfold normalizeBatches
  rw [List.map_map]
  apply List.map_congr_left
  intro b _
  by_cases h : b.h ≠ target_height ∨ b.w ≠ target_width
  · simp only [Function.comp_apply, if_pos h]
    rfl
  · simp only [Function.comp_apply, if_neg h]

lemma nOffset_zero (bs : List Batch) : nOffset bs 0 = 0 := rfl

lemma nOffset_cons (hd : Batch) (tl : List Batch) (i : ℕ) :
    nOffset (hd :: tl) (i + 1) = hd.n + nOffset tl i := by
  unfold nOffset
  rw [List.take_succ_cons, List.map_cons, List.sum_cons]

lemma concatPix_offset (bs : List Batch) :
    ∀ (i : ℕ) (b : Batch), bs[i]? = some b →
      ∀ (j y x k : ℕ), j < b.n →
        concatPix bs (nOffset bs i + j) y x k = b.pix j y x k := by
  induction bs with
  | nil => intro i b h; simp at h
  | cons hd tl ih =>
    intro i b hb j y x k hj
    cases i with
    | zero =>
      simp only [List.getElem?_cons_zero, Option.some_inj] at hb
      subst hb
      rw [nOffset_zero, Nat.zero_add]
      unfold concatPix
      rw [if_pos hj]
    | succ i' =>
      have hb' : tl[i']? = some b := by simpa using hb
      rw [nOffset_cons]
      unfold concatPix
      rw [if_neg (by omega)]
      have harg : hd.n + nOffset tl i' + j - hd.n = nOffset tl i' + j := by omega
      rw [harg]
      exact ih i' b hb' j y x k hj

/-- Claim C5: the grid composer never fails on empty input.  With no image
inputs it returns a single black `512 x 512 x 3` image (line 67); when the
supplied batches concatenate to an empty batch it returns a single black
placeholder sized to the reference height, width and channel count of the
first batch (line 97).  Both paths return before the layout divisions, so no
division or modulo by zero is performed (the embedding is total and these
branches never evaluate `gridCols`/`cellRow`/`cellCol`). -/
theorem C5_empty_input (columns padding : ℕ)
    (image_1 image_2 image_3 image_4 image_5 image_6 : Option Batch)
    (first : Batch) (rest : List Batch)
    (hall : [image_1, image_2, image_3, image_4, image_5, image_6].filterMap id =
      first :: rest)
    (hzero : ∀ b ∈ first :: rest, b.n = 0) :
    create_grid columns padding none none none none none none = torchZeros 1 512 512 3 ∧
    create_grid columns padding image_1 image_2 image_3 image_4 image_5 image_6 =
      torchZeros 1 first.h first.w first.c := by
  constructor
  · rfl
  · unfold create_grid
    rw [hall]
    have hn : (concatBatches (normalizeBatches first.h first.w (first :: rest))).n = 0 := by
      show ((normalizeBatches first.h first.w (first :: rest)).map Batch.n).sum = 0
      rw [normalizeBatches_map_n]
      apply List.sum_eq_zero
      intro x hx
      obtain ⟨b, hb, rfl⟩ := List.mem_map.mp hx
      exact hzero b hb
    simp [hn]

theorem C5_empty_input_witness :
    create_grid 2 1 none none none none none none = torchZeros 1 512 512 3 ∧
    create_grid 2 1 (some (torchZeros 0 4 5 3)) none none none none none =
      torchZeros 1 (torchZeros 0 4 5 3).h (torchZeros 0 4 5 3).w (torchZeros 0 4 5 3).c :=
  C5_empty_input 2 1 (some (torchZeros 0 4 5 3)) none none none none none
    (torchZeros 0 4 5 3) [] rfl (by intro b hb; simp at hb; subst hb; rfl)

/-- Claim C8: the batch normaliser resizes exactly the batches whose
per-image height or width differs from the first batch's reference
dimensions, producing images of exactly the reference height and width with
channel count and per-batch image count preserved, and concatenates all
batches in their original relative order. -/
theorem C8_batch_normalizer (batches : List Batch) (hne : batches ≠ [])
    (target_height target_width : ℕ)
    (hth : target_height = (batches.head hne).h)
    (htw : target_width = (batches.head hne).w) :
    (normalizeBatches target_height target_width batches).length = batches.length ∧
    (∀ (i : ℕ) (b : Batch), batches[i]? = some b →
      ∃ p, (normalizeBatches target_height target_width batches)[i]? = some p ∧
        p.n = b.n ∧ p.c = b.c ∧ p.h = target_height ∧ p.w = target_width ∧
        (b.h = target_height ∧ b.w = target_width → p = b)) ∧
    (concatBatches (normalizeBatches target_height target_width batches)).n =
      (batches.map Batch.n).sum ∧
    (∀ (i : ℕ) (p : Batch),
      (normalizeBatches target_height target_width batches)[i]? = some p →
      ∀ (j y x k : ℕ), j < p.n →
        (concatBatches (normalizeBatches target_height target_width batches)).pix
            (nOffset (normalizeBatches target_height target_width batches) i + j) y x k =
          p.pix j y x k) := by
  refine ⟨?_, ?_, ?_, ?_⟩
  · unfold normalizeBatches
    exact List.length_map _ _
  · intro i b hb
    have hmap : (normalizeBatches target_height target_width batches)[i]? =
        some (if b.h ≠ target_height ∨ b.w ≠ target_width
          then interpolateBilinear b target_height target_width else b) := by
      unfold normalizeBatches
      rw [List.getElem?_map, hb]
      rfl
    by_cases hc : b.h ≠ target_height ∨ b.w ≠ target_width
    · rw [if_pos hc] at hmap
      refine ⟨interpolateBilinear b target_height target_width, hmap, rfl, rfl, rfl, rfl, ?_⟩
      intro hcontra
      exact absurd hcontra (by tauto)
    · rw [if_neg hc] at hmap
      push_neg at hc
      exact ⟨b, hmap, rfl, rfl, hc.1, hc.2, fun _ => rfl⟩
  · show ((normalizeBatches target_height target_width batches).map Batch.n).sum = _
    rw [normalizeBatches_map_n]
  · intro i p hp j y x k hj
    exact concatPix_offset _ i p hp j y x k hj

theorem C8_batch_normalizer_witness :
    (normalizeBatches 128 128 [torchZeros 2 128 128 3, torchZeros 5 64 64 3]).length =
      [torchZeros 2 128 128 3, torchZeros 5 64 64 3].length ∧
    (∀ (i : ℕ) (b : Batch), [torchZeros 2 128 128 3, torchZeros 5 64 64 3][i]? = some b →
      ∃ p, (normalizeBatches 128 128 [torchZeros 2 128 128 3, torchZeros 5 64 64 3])[i]? =
          some p ∧
        p.n = b.n ∧ p.c = b.c ∧ p.h = 128 ∧ p.w = 128 ∧
        (b.h = 128 ∧ b.w = 128 → p = b)) ∧
    (concatBatches (normalizeBatches 128 128
        [torchZeros 2 128 128 3, torchZeros 5 64 64 3])).n =
      ([torchZeros 2 128 128 3, torchZeros 5 64 64 3].map Batch.n).sum ∧
    (∀ (i : ℕ) (p : Batch),
      (normalizeBatches 128 128 [torchZeros 2 128 128 3, torchZeros 5 64 64 3])[i]? =
        some p →
      ∀ (j y x k : ℕ), j < p.n →
        (concatBatches (normalizeBatches 128 128
            [torchZeros 2 128 128 3, torchZeros 5 64 64 3])).pix
            (nOffset (normalizeBatches 128 128
              [torchZeros 2 128 128 3, torchZeros 5 64 64 3]) i + j) y x k =
          p.pix j y x k) :=
  C8_batch_normalizer [torchZeros 2 128 128 3, torchZeros 5 64 64 3]
    (by simp) 128 128 rfl rfl

/-! ### text_label.py : colour resolution (lines 59-73)

`hex_to_rgba` calls Python `int(·, 16)` on two-character slices; `int` raises
`ValueError` when no valid numeral is found, so the embedding returns an
`Option`, with `none` standing for the raised exception.  `parseHexInt`
models CPython `int(s, 16)`: surrounding whitespace is skipped, an optional
leading sign and an optional `0x`/`0X` prefix are accepted, and the numeral
is a sequence of hex digits with single underscores allowed between digits
(and one directly after the prefix).  The hex digits modelled are the ASCII
ones; CPython additionally accepts non-ASCII Unicode decimal digits
(category Nd), which are outside the modelled character set, so every string
`parseHexInt` accepts is accepted by CPython with the same value.
`pyIsSpace` is the complete CPython `Py_UNICODE_ISSPACE` set used by
`str.strip()` (line 61); `intIsSpace` is the slightly smaller set `int`
skips (CPython maps non-ASCII whitespace to a space and then parses bytes
with C `isspace`, so the ASCII file separators 0x1C-0x1F are whitespace for
`strip` but invalid for `int`). -/

/-- CPython `Py_UNICODE_ISSPACE`: 0x09-0x0D, 0x1C-0x1F, space, 0x85, 0xA0,
0x1680, 0x2000-0x200A, 0x2028, 0x2029, 0x202F, 0x205F, 0x3000. -/
def pyIsSpace (c : Char) : Bool :=
  decide ((9 ≤ c.toNat ∧ c.toNat ≤ 13) ∨ (28 ≤ c.toNat ∧ c.toNat ≤ 31) ∨
    c.toNat = 32 ∨ c.toNat = 0x85 ∨ c.toNat = 0xa0 ∨ c.toNat = 0x1680 ∨
    (0x2000 ≤ c.toNat ∧ c.toNat ≤ 0x200a) ∨ c.toNat = 0x2028 ∨ c.toNat = 0x2029 ∨
    c.toNat = 0x202f ∨ c.toNat = 0x205f ∨ c.toNat = 0x3000)

/-- The whitespace `int(·, 16)` skips: `pyIsSpace` without 0x1C-0x1F. -/
def intIsSpace (c : Char) : Bool :=
  decide ((9 ≤ c.toNat ∧ c.toNat ≤ 13) ∨
    c.toNat = 32 ∨ c.toNat = 0x85 ∨ c.toNat = 0xa0 ∨ c.toNat = 0x1680 ∨
    (0x2000 ≤ c.toNat ∧ c.toNat ≤ 0x200a) ∨ c.toNat = 0x2028 ∨ c.toNat = 0x2029 ∨
    c.toNat = 0x202f ∨ c.toNat = 0x205f ∨ c.toNat = 0x3000)

/-- One ASCII hex digit: codes 48-57 are `0`-`9`, 97-102 are `a`-`f`,
65-70 are `A`-`F`. -/
def hexDigitVal (c : Char) : Option ℕ :=
  if 48 ≤ c.toNat ∧ c.toNat ≤ 57 then some (c.toNat - 48)
  else if 97 ≤ c.toNat ∧ c.toNat ≤ 102 then some (c.toNat - 97 + 10)
  else if 65 ≤ c.toNat ∧ c.toNat ≤ 70 then some (c.toNat - 65 + 10)
  else none

/-- The numeral after its first digit: further digits, single underscores
between digits, and trailing whitespace only at the end. -/
def parseHexRest : List Char → ℕ → Option ℕ
  | [], acc => some acc
  | c :: rest, acc =>
      if c = '_' then
        match rest with
        | [] => none
        | c2 :: rest2 => (hexDigitVal c2).bind fun v => parseHexRest rest2 (16 * acc + v)
      else if intIsSpace c then
        if rest.all intIsSpace then some acc else none
      else (hexDigitVal c).bind fun v => parseHexRest rest (16 * acc + v)

/-- The numeral proper: at least one digit. -/
def parseHexStart : List Char → Option ℕ
  | [] => none
  | c :: rest => (hexDigitVal c).bind fun v => parseHexRest rest v

/-- One underscore is allowed directly after the `0x` prefix. -/
def parseHexAfterPrefix : List Char → Option ℕ
  | c :: rest => if c = '_' then parseHexStart rest else parseHexStart (c :: rest)
  | [] => parseHexStart []

/-- Optional `0x` / `0X` prefix (base 16). -/
def parseHexPrefixed : List Char → Option ℕ
  | c0 :: c1 :: rest =>
      if c0 = '0' ∧ (c1 = 'x' ∨ c1 = 'X') then parseHexAfterPrefix rest
      else parseHexStart (c0 :: c1 :: rest)
  | cs => parseHexStart cs

/-- Optional leading sign; a leading `-` makes the value negative. -/
def parseHexSigned : List Char → Option ℤ
  | [] => none
  | c :: rest =>
      if c = '+' then (parseHexPrefixed rest).map fun n => (n : ℤ)
      else if c = '-' then (parseHexPrefixed rest).map fun n => -(n : ℤ)
      else (parseHexPrefixed (c :: rest)).map fun n => (n : ℤ)

/-- CPython `int(s, 16)` (over the modelled character set). -/
def parseHexInt (cs : List Char) : Option ℤ :=
  parseHexSigned (cs.dropWhile intIsSpace)

/-- Python `str.strip()`. -/
def pyStrip (cs : List Char) : List Char :=
  ((cs.dropWhile pyIsSpace).reverse.dropWhile pyIsSpace).reverse

/-- Line 61: `hex_color.strip().lstrip("#")`. -/
def stripHex (s : String) : List Char :=
  (pyStrip s.data).dropWhile (fun c => c = '#')

/-- Line 72: `alpha_value = max(0, min(255, int(alpha * 255)))`. -/
def alphaValue (alpha : ℚ) : ℤ :=
  max 0 (min 255 (ratTrunc (alpha * 255)))

/-- Lines 59-73: `hex_to_rgba`.  The list patterns of length 3 and 6 mirror
the `len(hex_color) == 3` / `len(hex_color) == 6` tests; `int(c * 2, 16)` is
`parseHexInt [c, c]`.  A leading `-` in a slice makes `int` return a
negative component, hence the `ℤ` components. -/
def hex_to_rgba (hex_color : String) (alpha : ℚ) : Option (ℤ × ℤ × ℤ × ℤ) :=
  let rgb : Option (ℤ × ℤ × ℤ) :=
    match stripHex hex_color with
    | [c0, c1, c2] =>
        (parseHexInt [c0, c0]).bind fun r =>
        (parseHexInt [c1, c1]).bind fun g =>
        (parseHexInt [c2, c2]).map fun b => (r, g, b)
    | [c0, c1, c2, c3, c4, c5] =>
        (parseHexInt [c0, c1]).bind fun r =>
        (parseHexInt [c2, c3]).bind fun g =>
        (parseHexInt [c4, c5]).map fun b => (r, g, b)
    | _ => some (255, 255, 255)
  rgb.map fun t => (t.1, t.2.1, t.2.2, alphaValue alpha)

/-- The Python behaviours the reviewer checks by hand:  `int("f ", 16) = 15`
(trailing space), `int("+f", 16) = 15` (sign), `int("0xf", 16) = 15`
(prefix), `int("f_f", 16) = 255` (underscore), and errors on `"zz"`, `"0x"`,
`"f_"`, `"_f"`, `"f f"`, `""`. -/
example : parseHexInt "f ".data = some 15 := by decide
example : parseHexInt "+f".data = some 15 := by decide
example : parseHexInt "-f".data = some (-15) := by decide
example : parseHexInt "0xf".data = some 15 := by decide
example : parseHexInt "0x_f".data = some 15 := by decide
example : parseHexInt "f_f".data = some 255 := by decide
example : parseHexInt " ff ".data = some 255 := by decide
example : parseHexInt "zz".data = none := by decide
example : parseHexInt "0x".data = none := by decide
example : parseHexInt "f_".data = none := by decide
example : parseHexInt "_f".data = none := by decide
example : parseHexInt "f f".data = none := by decide
example : parseHexInt "".data = none := by decide

/-- The two whitespace sets genuinely differ: `str.strip()` removes the file
separator 0x1C while `int(" ff\x1c ", 16)` raises. -/
example : pyStrip " ff\x1c ".data = ['f', 'f'] := by decide
example : parseHexInt " ff\x1c ".data = none := by decide

lemma hexDigitVal_ranges {c : Char} {v : ℕ} (h : hexDigitVal c = some v) :
    (48 ≤ c.toNat ∧ c.toNat ≤ 57) ∨ (97 ≤ c.toNat ∧ c.toNat ≤ 102) ∨
    (65 ≤ c.toNat ∧ c.toNat ≤ 70) := by
  unfold hexDigitVal at h
  split at h
  · left; assumption
  · split at h
    · right; left; assumption
    · split at h
      · right; right; assumption
      · exact Option.noConfusion h

lemma hexDigit_not_space {c : Char} {v : ℕ} (h : hexDigitVal c = some v) :
    pyIsSpace c = false := by
  rcases hexDigitVal_ranges h with hr | hr | hr <;>
    (unfold pyIsSpace; rw [decide_eq_false_iff_not]; omega)

lemma hexDigit_not_intSpace {c : Char} {v : ℕ} (h : hexDigitVal c = some v) :
    intIsSpace c = false := by
  rcases hexDigitVal_ranges h with hr | hr | hr <;>
    (unfold intIsSpace; rw [decide_eq_false_iff_not]; omega)

lemma hexDigit_ne {c : Char} {v : ℕ} (h : hexDigitVal c = some v) (d : Char)
    (hd : d.toNat < 48 ∨ (57 < d.toNat ∧ d.toNat < 65) ∨
      (70 < d.toNat ∧ d.toNat < 97) ∨ 102 < d.toNat) : c ≠ d := by
  intro he
  subst he
  rcases hexDigitVal_ranges h with hr | hr | hr <;> omega

lemma parseHexInt_pair {a b : Char} {va vb : ℕ}
    (ha : hexDigitVal a = some va) (hb : hexDigitVal b = some vb) :
    parseHexInt [a, b] = some ((16 * va + vb : ℕ) : ℤ) := by
  have haw := hexDigit_not_intSpace ha
  have hbw := hexDigit_not_intSpace hb
  have hap : a ≠ '+' := hexDigit_ne ha '+' (by left; decide)
  have ham : a ≠ '-' := hexDigit_ne ha '-' (by left; decide)
  have hbx : b ≠ 'x' := hexDigit_ne hb 'x' (by right; right; right; decide)
  have hbX : b ≠ 'X' := hexDigit_ne hb 'X' (by right; right; left; decide)
  have hbu : b ≠ '_' := hexDigit_ne hb '_' (by right; right; left; decide)
  have hrest : parseHexRest [b] va = some (16 * va + vb) := by
    unfold parseHexRest
    rw [if_neg hbu, if_neg (by simp [hbw]), hb]
    simp only [Option.some_bind]
    rfl
  have hstart : parseHexStart [a, b] = some (16 * va + vb) := by
    show (hexDigitVal a).bind (fun v => parseHexRest [b] v) = some (16 * va + vb)
    rw [ha]
    simp only [Option.some_bind]
    exact hrest
  have hpre : parseHexPrefixed [a, b] = some (16 * va + vb) := by
    show (if a = '0' ∧ (b = 'x' ∨ b = 'X') then parseHexAfterPrefix []
      else parseHexStart [a, b]) = some (16 * va + vb)
    rw [if_neg (by rintro ⟨_, hx | hx⟩; exacts [hbx hx, hbX hx])]
    exact hstart
  have hsigned : parseHexSigned [a, b] = some ((16 * va + vb : ℕ) : ℤ) := by
    show (if a = '+' then (parseHexPrefixed [b]).map (fun n => (n : ℤ))
      else if a = '-' then (parseHexPrefixed [b]).map (fun n => -(n : ℤ))
      else (parseHexPrefixed [a, b]).map fun n => (n : ℤ)) =
      some ((16 * va + vb : ℕ) : ℤ)
    rw [if_neg hap, if_neg ham, hpre]
    rfl
  unfold parseHexInt
  rw [List.dropWhile_cons, if_neg (by simp [haw])]
  exact hsigned

lemma hex_to_rgba_three (s : String) (alpha : ℚ) (c0 c1 c2 : Char) (v0 v1 v2 : ℕ)
    (hd : stripHex s = [c0, c1, c2]) (h0 : hexDigitVal c0 = some v0)
    (h1 : hexDigitVal c1 = some v1) (h2 : hexDigitVal c2 = some v2) :
    hex_to_rgba s alpha = some (((17 * v0 : ℕ) : ℤ), ((17 * v1 : ℕ) : ℤ),
      ((17 * v2 : ℕ) : ℤ), alphaValue alpha) := by
  unfold hex_to_rgba
  rw [hd]
  rw [show (17 : ℕ) * v0 = 16 * v0 + v0 by ring, show (17 : ℕ) * v1 = 16 * v1 + v1 by ring,
    show (17 : ℕ) * v2 = 16 * v2 + v2 by ring]
  simp [parseHexInt_pair h0 h0, parseHexInt_pair h1 h1, parseHexInt_pair h2 h2]

lemma hex_to_rgba_six (s : String) (alpha : ℚ) (c0 c1 c2 c3 c4 c5 : Char)
    (v0 v1 v2 v3 v4 v5 : ℕ)
    (hd : stripHex s = [c0, c1, c2, c3, c4, c5])
    (h0 : hexDigitVal c0 = some v0) (h1 : hexDigitVal c1 = some v1)
    (h2 : hexDigitVal c2 = some v2) (h3 : hexDigitVal c3 = some v3)
    (h4 : hexDigitVal c4 = some v4) (h5 : hexDigitVal c5 = some v5) :
    hex_to_rgba s alpha =
      some (((16 * v0 + v1 : ℕ) : ℤ), ((16 * v2 + v3 : ℕ) : ℤ),
        ((16 * v4 + v5 : ℕ) : ℤ), alphaValue alpha) := by
  unfold hex_to_rgba
  rw [hd]
  simp [parseHexInt_pair h0 h1, parseHexInt_pair h2 h3, parseHexInt_pair h4 h5]

lemma hex_to_rgba_default (s : String) (alpha : ℚ)
    (h3 : (stripHex s).length ≠ 3) (h6 : (stripHex s).length ≠ 6) :
    hex_to_rgba s alpha = some (255, 255, 255, alphaValue alpha) := by
  unfold hex_to_rgba
  rcases hls : stripHex s with _ | ⟨a, _ | ⟨b, _ | ⟨c, _ | ⟨d, _ | ⟨e, _ | ⟨f, _ | ⟨g, rest⟩⟩⟩⟩⟩⟩⟩
  · rfl
  · rfl
  · rfl
  · rw [hls] at h3; simp at h3
  · rfl
  · rfl
  · rw [hls] at h6; simp at h6
  · rfl

lemma alphaValue_one : alphaValue 1 = 255 := by norm_num [alphaValue, ratTrunc]

lemma alphaValue_zero : alphaValue 0 = 0 := by norm_num [alphaValue, ratTrunc]

lemma alphaValue_half : alphaValue (1/2) = 127 := by norm_num [alphaValue, ratTrunc]

/-- Colour-resolution test vectors from the spec:  `"#FFF"` at opacity 1,
`"#000000"` at opacity 0, malformed `"#12"`. -/
example : hex_to_rgba "#FFF" 1 = some (255, 255, 255, 255) := by
  rw [hex_to_rgba_three "#FFF" 1 'F' 'F' 'F' 15 15 15 (by decide) (by decide)
    (by decide) (by decide), alphaValue_one]
  norm_num

example : hex_to_rgba "#000000" 0 = some (0, 0, 0, 0) := by
  rw [hex_to_rgba_six "#000000" 0 '0' '0' '0' '0' '0' '0' 0 0 0 0 0 0 (by decide)
    (by decide) (by decide) (by decide) (by decide) (by decide) (by decide),
    alphaValue_zero]
  norm_num

example : hex_to_rgba "#12" (1/2) = some (255, 255, 255, 127) := by
  rw [hex_to_rgba_default "#12" (1/2) (by decide) (by decide), alphaValue_half]

/-- `"\x0c123"`: `str.strip()` removes the form feed, leaving the 3-digit
numeral, which the code parses by digit duplication. -/
example : hex_to_rgba "\x0c123" 1 = some (17, 34, 51, 255) := by
  rw [hex_to_rgba_three "\x0c123" 1 '1' '2' '3' 1 2 3 (by decide) (by decide)
    (by decide) (by decide), alphaValue_one]
  norm_num

/-- `"\x0bzzz"`: `str.strip()` removes the vertical tab, leaving `"zzz"` of
length 3, and `int("zz", 16)` raises. -/
example : hex_to_rgba "\x0bzzz" 1 = none := by decide

/-- `int(·, 16)` tolerance inside 2-character slices: `"f 00ff"` slices to
`"f "`, `"00"`, `"ff"` and parses to `(15, 0, 255)`; `"+f00ff"` slices to
`"+f"`, `"00"`, `"ff"` and parses the same. -/
example : hex_to_rgba "f 00ff" 1 = some (15, 0, 255, alphaValue 1) := rfl

example : hex_to_rgba "+f00ff" 1 = some (15, 0, 255, alphaValue 1) := rfl

/-- Claim C3 counterexample: the claim states that the alpha channel equals
`round(clamp(opacity, 0, 1) * 255)`, but the code computes
`max(0, min(255, int(opacity * 255)))` and Python `int` truncates: at opacity
`1/2` the code yields alpha `127` while the claimed formula yields
`round(127.5) = 128`. -/
theorem C3_alpha_counterexample :
    hex_to_rgba "#FFF" (1/2) = some (255, 255, 255, 127) ∧
    round (min 1 (max 0 ((1 : ℚ)/2)) * 255) = 128 ∧ (127 : ℤ) ≠ 128 := by
  refine ⟨?_, by norm_num [round_eq], by decide⟩
  rw [hex_to_rgba_three "#FFF" (1/2) 'F' 'F' 'F' 15 15 15 (by decide) (by decide)
    (by decide) (by decide), alphaValue_half]
  norm_num

/-- Claim C3 (amended): a 3-hex-digit colour expands each digit by
duplication (`int(c * 2, 16) = 17 * v`), a 6-hex-digit colour parses the
three byte pairs, every other stripped length falls back to
`(255, 255, 255)`, and in all cases the alpha channel is the clamped
truncation `max(0, min(255, int(opacity * 255)))` (not the rounding the
original claim stated). -/
theorem C3_hex_to_rgba (s : String) (alpha : ℚ) (d : List Char)
    (hd : stripHex s = d) :
    (∀ c0 c1 c2 v0 v1 v2, d = [c0, c1, c2] →
      hexDigitVal c0 = some v0 → hexDigitVal c1 = some v1 → hexDigitVal c2 = some v2 →
      hex_to_rgba s alpha = some (((17 * v0 : ℕ) : ℤ), ((17 * v1 : ℕ) : ℤ),
        ((17 * v2 : ℕ) : ℤ), alphaValue alpha)) ∧
    (∀ c0 c1 c2 c3 c4 c5 v0 v1 v2 v3 v4 v5, d = [c0, c1, c2, c3, c4, c5] →
      hexDigitVal c0 = some v0 → hexDigitVal c1 = some v1 →
      hexDigitVal c2 = some v2 → hexDigitVal c3 = some v3 →
      hexDigitVal c4 = some v4 → hexDigitVal c5 = some v5 →
      hex_to_rgba s alpha =
        some (((16 * v0 + v1 : ℕ) : ℤ), ((16 * v2 + v3 : ℕ) : ℤ),
          ((16 * v4 + v5 : ℕ) : ℤ), alphaValue alpha)) ∧
    (d.length ≠ 3 → d.length ≠ 6 →
      hex_to_rgba s alpha = some (255, 255, 255, alphaValue alpha)) ∧
    alphaValue alpha = max 0 (min 255 (ratTrunc (alpha * 255))) := by
  subst hd
  refine ⟨?_, ?_, ?_, rfl⟩
  · intro c0 c1 c2 v0 v1 v2 hd3 h0 h1 h2
    exact hex_to_rgba_three s alpha c0 c1 c2 v0 v1 v2 hd3 h0 h1 h2
  · intro c0 c1 c2 c3 c4 c5 v0 v1 v2 v3 v4 v5 hd6 h0 h1 h2 h3 h4 h5
    exact hex_to_rgba_six s alpha c0 c1 c2 c3 c4 c5 v0 v1 v2 v3 v4 v5 hd6 h0 h1 h2 h3 h4 h5
  · intro h3 h6
    exact hex_to_rgba_default s alpha h3 h6

theorem C3_hex_to_rgba_witness :
    (∀ c0 c1 c2 v0 v1 v2, (['F', 'F', 'F'] : List Char) = [c0, c1, c2] →
      hexDigitVal c0 = some v0 → hexDigitVal c1 = some v1 → hexDigitVal c2 = some v2 →
      hex_to_rgba "#FFF" 1 = some (((17 * v0 : ℕ) : ℤ), ((17 * v1 : ℕ) : ℤ),
        ((17 * v2 : ℕ) : ℤ), alphaValue 1)) ∧
    (∀ c0 c1 c2 c3 c4 c5 v0 v1 v2 v3 v4 v5,
      (['F', 'F', 'F'] : List Char) = [c0, c1, c2, c3, c4, c5] →
      hexDigitVal c0 = some v0 → hexDigitVal c1 = some v1 →
      hexDigitVal c2 = some v2 → hexDigitVal c3 = some v3 →
      hexDigitVal c4 = some v4 → hexDigitVal c5 = some v5 →
      hex_to_rgba "#FFF" 1 =
        some (((16 * v0 + v1 : ℕ) : ℤ), ((16 * v2 + v3 : ℕ) : ℤ),
          ((16 * v4 + v5 : ℕ) : ℤ), alphaValue 1)) ∧
    ((['F', 'F', 'F'] : List Char).length ≠ 3 → (['F', 'F', 'F'] : List Char).length ≠ 6 →
      hex_to_rgba "#FFF" 1 = some (255, 255, 255, alphaValue 1)) ∧
    alphaValue 1 = max 0 (min 255 (ratTrunc (1 * 255))) :=
  C3_hex_to_rgba "#FFF" 1 ['F', 'F', 'F'] (by decide)

lemma parseHexInt_pair_isSome {a b : Char}
    (ha : (hexDigitVal a).isSome) (hb : (hexDigitVal b).isSome) :
    (parseHexInt [a, b]).isSome := by
  obtain ⟨va, hva⟩ := Option.isSome_iff_exists.mp ha
  obtain ⟨vb, hvb⟩ := Option.isSome_iff_exists.mp hb
  rw [parseHexInt_pair hva hvb]
  rfl

/-- Claim C4 counterexample: `hex_to_rgba` does raise on some malformed
colour strings: `"#zzz"` has stripped length 3, so the code evaluates
`int("zz", 16)`, which raises `ValueError` (embedded as `none`). -/
theorem C4_raise_counterexample : hex_to_rgba "#zzz" 1 = none := by decide

/-- Claim C4 (amended): colour resolution never raises for colour strings
whose stripped form either has a length other than 3 and 6 (these fall back
to opaque white regardless of content) or consists only of hex digits;
out-of-range opacity never raises (the alpha computation clamps).  The
original claim fails because some malformed colour strings do raise: a
stripped 3- or 6-character string whose slices carry no valid `int(·, 16)`
numeral, such as `"#zzz"`, raises `ValueError` instead of degrading to the
default. -/
theorem C4_no_raise (s : String) (alpha : ℚ)
    (h : ((stripHex s).length ≠ 3 ∧ (stripHex s).length ≠ 6) ∨
      ∀ c ∈ stripHex s, (hexDigitVal c).isSome) :
    (hex_to_rgba s alpha).isSome := by
  rcases hls : stripHex s with _ | ⟨a, _ | ⟨b, _ | ⟨c, _ | ⟨d, _ | ⟨e, _ | ⟨f, _ | ⟨g, rest⟩⟩⟩⟩⟩⟩⟩
  · rw [hex_to_rgba_default s alpha (by rw [hls]; simp) (by rw [hls]; simp)]; rfl
  · rw [hex_to_rgba_default s alpha (by rw [hls]; simp) (by rw [hls]; simp)]; rfl
  · rw [hex_to_rgba_default s alpha (by rw [hls]; simp) (by rw [hls]; simp)]; rfl
  · rcases h with ⟨h3, _⟩ | hall
    · rw [hls] at h3; simp at h3
    · rw [hls] at hall
      obtain ⟨va, hva⟩ := Option.isSome_iff_exists.mp (hall a (by simp))
      obtain ⟨vb, hvb⟩ := Option.isSome_iff_exists.mp (hall b (by simp))
      obtain ⟨vc, hvc⟩ := Option.isSome_iff_exists.mp (hall c (by simp))
      rw [hex_to_rgba_three s alpha a b c va vb vc hls hva hvb hvc]
      rfl
  · rw [hex_to_rgba_default s alpha (by rw [hls]; simp) (by rw [hls]; simp)]; rfl
  · rw [hex_to_rgba_default s alpha (by rw [hls]; simp) (by rw [hls]; simp)]; rfl
  · rcases h with ⟨_, h6⟩ | hall
    · rw [hls] at h6; simp at h6
    · rw [hls] at hall
      obtain ⟨va, hva⟩ := Option.isSome_iff_exists.mp (hall a (by simp))
      obtain ⟨vb, hvb⟩ := Option.isSome_iff_exists.mp (hall b (by simp))
      obtain ⟨vc, hvc⟩ := Option.isSome_iff_exists.mp (hall c (by simp))
      obtain ⟨vd, hvd⟩ := Option.isSome_iff_exists.mp (hall d (by simp))
      obtain ⟨ve, hve⟩ := Option.isSome_iff_exists.mp (hall e (by simp))
      obtain ⟨vf, hvf⟩ := Option.isSome_iff_exists.mp (hall f (by simp))
      rw [hex_to_rgba_six s alpha a b c d e f va vb vc vd ve vf hls hva hvb hvc hvd hve hvf]
      rfl
  · rw [hex_to_rgba_default s alpha (by rw [hls]; simp) (by rw [hls]; simp)]; rfl

theorem C4_no_raise_witness : (hex_to_rgba "#12" (-3)).isSome :=
  C4_no_raise "#12" (-3) (Or.inl (by decide))

/-! ### text_label.py : font resolution (lines 16-56, 87-121)

`ImageFont.truetype` performs file input and may raise for any reason (file
missing, unreadable, unsupported format); it is injected as a function
`tryLoad : String → ℕ → Option Font`, `none` standing for a raised (and
caught) exception.  The environment facts used by `get_font_paths`
(`os.path.dirname(__file__)`, `platform.system().lower() == "linux"`,
`os.path.expanduser("~")`) are collected in `FontEnv`; `os.path.join` is
embedded as the usual separator join. -/

structure FontEnv where
  moduleDir : String
  isLinux : Bool
  home : String

def pathJoin (a b : String) : String := a ++ "/" ++ b

/-- Lines 16-36: the `CUSTOM_FONTS` table. -/
def CUSTOM_FONTS (font_family : String) : Option (List String) :=
  match font_family with
  | "Funnel Sans" =>
      some ["Funnel_Sans/static/FunnelSans-Regular.ttf", "FunnelSans-Regular.ttf"]
  | "Funnel Sans Bold" =>
      some ["Funnel_Sans/static/FunnelSans-Bold.ttf", "FunnelSans-Bold.ttf"]
  | "Google Sans Code" =>
      some ["Google_Sans_Code/static/GoogleSansCode-Regular.ttf", "GoogleSansCode-Regular.ttf"]
  | "Google Sans Code Bold" =>
      some ["Google_Sans_Code/static/GoogleSansCode-Bold.ttf", "GoogleSansCode-Bold.ttf"]
  | "Arial" => some ["arial.ttf", "Arial.ttf"]
  | "Arial Bold" => some ["arialbd.ttf", "Arialbd.ttf", "Arial Bold.ttf"]
  | "Monospace" => some ["consola.ttf", "Consola.ttf", "DejaVuSansMono.ttf"]
  | _ => none

/-- Lines 40-56: the `SYSTEM_FONTS` table. -/
def SYSTEM_FONTS (font_family : String) : Option (List String) :=
  match font_family with
  | "Arial" => some ["C:\\Windows\\Fonts\\arial.ttf", "/Library/Fonts/Arial.ttf",
      "/usr/share/fonts/truetype/msttcorefonts/Arial.ttf"]
  | "Arial Bold" => some ["C:\\Windows\\Fonts\\arialbd.ttf",
      "/Library/Fonts/Arial Bold.ttf",
      "/usr/share/fonts/truetype/msttcorefonts/Arial_Bold.ttf"]
  | "Monospace" => some ["C:\\Windows\\Fonts\\consola.ttf", "/Library/Fonts/Menlo.ttc",
      "/usr/share/fonts/truetype/dejavu/DejaVuSansMono.ttf"]
  | _ => none

/-- Lines 87-110: `get_font_paths`.  Custom filenames each contribute the
bare name and the name under the local `fonts` directory, in that order;
then the system table; then, on Linux, the two user font directories. -/
def get_font_paths (env : FontEnv) (font_family : String) : List String :=
  let paths : List String := []
  let paths := match CUSTOM_FONTS font_family with
    | some filenames =>
        paths ++ filenames.flatMap fun fname =>
          [fname, pathJoin (pathJoin env.moduleDir "fonts") fname]
    | none => paths
  let paths := match SYSTEM_FONTS font_family with
    | some sys_paths => paths ++ sys_paths
    | none => paths
  if env.isLinux then
    paths ++ [pathJoin (pathJoin env.home ".fonts") "DejaVuSansMono.ttf",
      pathJoin (pathJoin (pathJoin (pathJoin env.home ".local") "share") "fonts")
        "DejaVuSansMono.ttf"]
  else paths

/-- A loaded font handle: the path it came from (`none` for the built-in
default) and its nominal size, used by the bbox fallback (`font.size`). -/
structure Font where
  source : Option String
  size : ℚ
deriving DecidableEq

/-- `ImageFont.load_default()`: the built-in bitmap fallback font of fixed
nominal size. -/
def defaultFont : Font := { source := none, size := 10 }

/-- Lines 113-121: `load_font`.  The loop with `try/except: continue` is the
first-success search over the candidate list; if every candidate fails the
built-in default font is returned.  The embedding is total: a raised
`truetype` exception is a `none` from `tryLoad` and is never propagated. -/
def load_font (tryLoad : String → ℕ → Option Font) (env : FontEnv)
    (font_family : String) (font_size : ℕ) : Font :=
  match (get_font_paths env font_family).findSome?
      (fun font_path => tryLoad font_path font_size) with
  | some font => font
  | none => defaultFont

lemma findSome?_eq_none_forall {α β : Type} (f : α → Option β) (l : List α)
    (h : ∀ a ∈ l, f a = none) : l.findSome? f = none := by
  induction l with
  | nil => rfl
  | cons hd tl ih =>
    rw [List.findSome?_cons, h hd (by simp)]
    exact ih fun a ha => h a (by simp [ha])

lemma findSome?_first {α β : Type} (f : α → Option β) :
    ∀ (l : List α) (i : ℕ) (hi : i < l.length) (b : β),
      f (l.get ⟨i, hi⟩) = some b →
      (∀ (j : ℕ) (hj : j < i), f (l.get ⟨j, lt_trans hj hi⟩) = none) →
      l.findSome? f = some b := by
  intro l
  induction l with
  | nil => intro i hi; simp at hi
  | cons hd tl ih =>
    intro i hi b hb hprev
    cases i with
    | zero =>
      rw [List.findSome?_cons, show f hd = some b from hb]
    | succ n =>
      rw [List.findSome?_cons, show f hd = none from hprev 0 (Nat.succ_pos n)]
      exact ih n (by simpa using hi) b (by exact hb)
        (fun j hj => by exact hprev (j + 1) (by omega))

/-- Claim C6: `load_font` tries the candidate paths strictly in list order
and returns the handle of the first path that loads; if every candidate
fails it returns the built-in default font instead of raising (the embedding
is total: `tryLoad` failures are caught, never propagated).  When the family
is unknown to both tables and the platform is not Linux, the candidate list
is empty, so the default font is returned. -/
theorem C6_font_resolution (tryLoad : String → ℕ → Option Font) (env : FontEnv)
    (font_family : String) (font_size : ℕ) :
    ((∀ p ∈ get_font_paths env font_family, tryLoad p font_size = none) →
      load_font tryLoad env font_family font_size = defaultFont) ∧
    (∀ (i : ℕ) (hi : i < (get_font_paths env font_family).length) (font : Font),
      tryLoad ((get_font_paths env font_family).get ⟨i, hi⟩) font_size = some font →
      (∀ (j : ℕ) (hj : j < i),
        tryLoad ((get_font_paths env font_family).get ⟨j, lt_trans hj hi⟩) font_size = none) →
      load_font tryLoad env font_family font_size = font) ∧
    (CUSTOM_FONTS font_family = none → SYSTEM_FONTS font_family = none →
      env.isLinux = false → get_font_paths env font_family = []) := by
  refine ⟨?_, ?_, ?_⟩
  · intro hall
    unfold load_font
    rw [findSome?_eq_none_forall _ _ hall]
  · intro i hi font hfont hprev
    unfold load_font
    rw [findSome?_first _ (get_font_paths env font_family) i hi font hfont hprev]
  · intro hc hs hl
    unfold get_font_paths
    rw [hc, hs, hl]
    rfl

theorem C6_font_resolution_witness :
    load_font (fun _ _ => none) ⟨"/nodes", false, "/home/user"⟩ "Comic Sans" 12 =
      defaultFont :=
  (C6_font_resolution (fun _ _ => none) ⟨"/nodes", false, "/home/user"⟩
    "Comic Sans" 12).1 (fun p _ => rfl)

/-! ### text_label.py : placement resolver (lines 134-152) -/

/-- Lines 134-152: `calculate_position`.  The Python `positions` dict is
total over the five anchor names and `positions.get(placement,
positions["center"])` sends both `"center"` and every unrecognized anchor to
the centring formula; Python `//` is floor division (`Int.fdiv`), and the
final `int(x), int(y)` is the identity on ints. -/
def calculate_position (image_width image_height box_width box_height : ℤ)
    (placement : String) (edge_offset : ℤ) : ℤ × ℤ :=
  match placement with
  | "top_left" => (edge_offset, edge_offset)
  | "top_right" => (image_width - box_width - edge_offset, edge_offset)
  | "bottom_left" => (edge_offset, image_height - box_height - edge_offset)
  | "bottom_right" =>
      (image_width - box_width - edge_offset, image_height - box_height - edge_offset)
  | _ => ((image_width - box_width).fdiv 2, (image_height - box_height).fdiv 2)

example : calculate_position 200 100 50 20 "bottom_right" 10 = (140, 70) := by decide

/-- Claim C7 counterexample: the claim reads the centring formula as
integer-truncated halves, but Python `//` floors: with a 15-wide box on a
10-wide image the code yields `(10 - 15) // 2 = -3` while truncation of
`-2.5` yields `-2`. -/
theorem C7_truncation_counterexample :
    calculate_position 10 10 15 15 "center" 0 = (-3, -3) ∧
    ratTrunc (((10 : ℚ) - 15) / 2) = -2 ∧
    calculate_position 10 10 15 15 "center" 0 ≠
      (ratTrunc (((10 : ℚ) - 15) / 2), ratTrunc (((10 : ℚ) - 15) / 2)) := by
  have ht : ratTrunc (((10 : ℚ) - 15) / 2) = -2 := by
    unfold ratTrunc
    rw [if_pos (by norm_num), Int.ceil_eq_iff]
    constructor <;> push_cast <;> norm_num
  refine ⟨by decide, ht, ?_⟩
  rw [ht]
  decide

/-- Claim C7 (amended): `calculate_position` returns exactly the per-anchor
formulas; the centre position uses floor division (Python `//`), which
coincides with integer truncation whenever the box fits inside the image;
any unrecognized anchor yields the centre position; and no clamping to the
image bounds is performed (the formulas are returned as-is, so they may be
negative or exceed the image). -/
theorem C7_calculate_position (image_width image_height box_width box_height : ℤ)
    (edge_offset : ℤ) (placement : String) :
    calculate_position image_width image_height box_width box_height "top_left"
      edge_offset = (edge_offset, edge_offset) ∧
    calculate_position image_width image_height box_width box_height "top_right"
      edge_offset = (image_width - box_width - edge_offset, edge_offset) ∧
    calculate_position image_width image_height box_width box_height "bottom_left"
      edge_offset = (edge_offset, image_height - box_height - edge_offset) ∧
    calculate_position image_width image_height box_width box_height "bottom_right"
      edge_offset = (image_width - box_width - edge_offset,
        image_height - box_height - edge_offset) ∧
    calculate_position image_width image_height box_width box_height "center"
      edge_offset =
      ((image_width - box_width).fdiv 2, (image_height - box_height).fdiv 2) ∧
    (placement ∉ (["top_left", "top_right", "bottom_left", "bottom_right"] : List String) →
      calculate_position image_width image_height box_width box_height placement
        edge_offset =
        ((image_width - box_width).fdiv 2, (image_height - box_height).fdiv 2)) ∧
    (0 ≤ image_width - box_width →
      (image_width - box_width).fdiv 2 = ratTrunc (((image_width : ℚ) - box_width) / 2)) := by
  refine ⟨rfl, rfl, rfl, rfl, rfl, ?_, ?_⟩
  · intro hnot
    simp only [List.mem_cons, List.not_mem_nil, or_false, not_or] at hnot
    obtain ⟨h1, h2, h3, h4⟩ := hnot
    unfold calculate_position
    split
    · exact absurd rfl h1
    · exact absurd rfl h2
    · exact absurd rfl h3
    · exact absurd rfl h4
    · rfl
  · intro hnn
    have hq : (0 : ℚ) ≤ ((image_width : ℚ) - box_width) / 2 := by
      apply div_nonneg _ (by norm_num)
      exact_mod_cast sub_nonneg.mpr (by exact_mod_cast sub_nonneg.mp hnn)
    have h1 : ((image_width : ℚ) - box_width) / 2 =
        ((image_width - box_width : ℤ) : ℚ) / ((2 : ℕ) : ℚ) := by
      push_cast
      ring
    unfold ratTrunc
    rw [if_neg (not_lt.mpr hq), h1, Rat.floor_intCast_div_natCast]
    exact Int.fdiv_eq_ediv _ (by norm_num)

theorem C7_calculate_position_witness :
    calculate_position 200 100 50 20 "top_left" 10 = (10, 10) ∧
    calculate_position 200 100 50 20 "top_right" 10 = (200 - 50 - 10, 10) ∧
    calculate_position 200 100 50 20 "bottom_left" 10 = (10, 100 - 20 - 10) ∧
    calculate_position 200 100 50 20 "bottom_right" 10 = (200 - 50 - 10, 100 - 20 - 10) ∧
    calculate_position 200 100 50 20 "center" 10 =
      ((200 - 50 : ℤ).fdiv 2, (100 - 20 : ℤ).fdiv 2) ∧
    (("oops" : String) ∉ (["top_left", "top_right", "bottom_left", "bottom_right"] : List String) →
      calculate_position 200 100 50 20 "oops" 10 =
        ((200 - 50 : ℤ).fdiv 2, (100 - 20 : ℤ).fdiv 2)) ∧
    (0 ≤ (200 : ℤ) - 50 → ((200 : ℤ) - 50).fdiv 2 = ratTrunc (((200 : ℚ) - 50) / 2)) :=
  C7_calculate_position 200 100 50 20 10 "oops"

/-! ### text_label.py : pixel-format conversion (lines 76-84)

PIL 8-bit pixel buffers are embedded as maps into `Fin 256` (uint8).  The
drawing primitives (`ImageDraw.rounded_rectangle`, `multiline_text`,
`textbbox`, `textlength`, `Image.alpha_composite`, `ImageFont.truetype`) are
external library collaborators injected through `RasterLib`; their types
record what PIL guarantees structurally: they transform 8-bit pixel maps in
place and never change the image extents.  ComfyUI `IMAGE` tensors are
3-channel RGB, so `Image.fromarray` yields an RGB image and
`convert("RGBA")` attaches an opaque alpha channel. -/

abbrev PixMap : Type := ℕ → ℕ → ℕ → Fin 256

/-- `tensor.clamp(0, 1)` for a single sample. -/
def clamp01 (v : ℚ) : ℚ := min (max v 0) 1

/-- Line 78 per sample: `(tensor.clamp(0, 1) * 255.0).round()`, numpy
rounding (half to even). -/
def roundClampByte (v : ℚ) : ℤ := roundHalfEven (clamp01 v * 255)

lemma roundHalfEven_mem (q : ℚ) :
    roundHalfEven q = ⌊q⌋ ∨ roundHalfEven q = ⌊q⌋ + 1 := by
  unfold roundHalfEven
  split
  · exact Or.inl rfl
  · split
    · exact Or.inr rfl
    · split
      · exact Or.inl rfl
      · exact Or.inr rfl

lemma roundClampByte_bounds (v : ℚ) :
    0 ≤ roundClampByte v ∧ roundClampByte v ≤ 255 := by
  have hlo : (0 : ℚ) ≤ clamp01 v * 255 := by
    unfold clamp01
    have h1 : (0 : ℚ) ≤ max v 0 := le_max_right v 0
    rcases min_cases (max v 0) 1 with ⟨he, _⟩ | ⟨he, _⟩ <;> rw [he] <;> nlinarith
  have hhi : clamp01 v * 255 ≤ 255 := by
    unfold clamp01
    rcases min_cases (max v 0) 1 with ⟨he, hc⟩ | ⟨he, hc⟩ <;> rw [he] <;> nlinarith
  have hfl : (0 : ℤ) ≤ ⌊clamp01 v * 255⌋ := by positivity
  have hfu : ⌊clamp01 v * 255⌋ ≤ 255 := by
    have := Int.floor_le_floor hhi
    simpa using this
  constructor
  · unfold roundClampByte
    rcases roundHalfEven_mem (clamp01 v * 255) with h | h <;> rw [h] <;> omega
  · unfold roundClampByte
    rcases eq_or_lt_of_le hfu with heq | hlt
    · have hfrac : clamp01 v * 255 - ⌊clamp01 v * 255⌋ < 1/2 := by
        rw [heq]
        push_cast
        linarith [hhi]
      unfold roundHalfEven
      rw [if_pos hfrac]
      omega
    · rcases roundHalfEven_mem (clamp01 v * 255) with h | h <;> rw [h] <;> omega

/-- One uint8 sample of `tensor_to_pil` (line 78). -/
def toByte (v : ℚ) : Fin 256 :=
  ⟨(roundClampByte v).toNat, by have := roundClampByte_bounds v; omega⟩

/-- Lines 76-79: `tensor_to_pil` (`Image.fromarray` of the rounded, clamped,
scaled uint8 array). -/
def tensor_to_pil (t : ℕ → ℕ → ℕ → ℚ) : PixMap := fun y x k => toByte (t y x k)

/-- `.convert("RGBA")` on the RGB image produced by `tensor_to_pil`:
alpha channel (index 3) becomes 255. -/
def convertRGBA (m : PixMap) : PixMap :=
  fun y x k => if k = 3 then (255 : Fin 256) else m y x k

/-- `.convert("RGB")`: keep the three colour channels, drop alpha. -/
def convertRGB (m : PixMap) : PixMap :=
  fun y x k => if k < 3 then m y x k else (0 : Fin 256)

/-- Lines 82-84: `pil_to_tensor` (`np.array(image).astype(np.float32) / 255.0`). -/
def pil_to_tensor (m : PixMap) : ℕ → ℕ → ℕ → ℚ :=
  fun y x k => ((m y x k).val : ℚ) / 255

/-- The injected PIL raster primitives.  `textBBox` returning `none` models
a raised exception of `draw.textbbox` (line 126-128); `truetype` returning
`none` models a raised exception of `ImageFont.truetype`. -/
structure RasterLib where
  textBBox : String → Font → Option (ℤ × ℤ × ℤ × ℤ)
  textLength : String → Font → ℚ
  roundedRectangle : ℤ × ℤ × ℤ × ℤ → ℤ → ℤ × ℤ × ℤ × ℤ → PixMap → PixMap
  multilineText : ℤ × ℤ → String → Font → ℤ × ℤ × ℤ × ℤ → String → ℕ →
    ℤ × ℤ × ℤ × ℤ → PixMap → PixMap
  alphaComposite : PixMap → PixMap → PixMap
  truetype : String → ℕ → Option Font

/-- Lines 124-131: `get_text_bbox` with its approximate-measurement
fallback `(0, 0, int(draw.textlength(...)), int(font.size))`. -/
def get_text_bbox (lib : RasterLib) (text : String) (font : Font) : ℤ × ℤ × ℤ × ℤ :=
  match lib.textBBox text font with
  | some bbox => bbox
  | none => (0, 0, ratTrunc (lib.textLength text font), ratTrunc font.size)

/-- Lines 220-225: the colour scheme selection
(`text_color, bg_color, stroke_color`). -/
def schemeColors (color_scheme : String) : String × String × String :=
  if color_scheme = "white_on_black" then ("#FFFFFF", "#000000", "#000000")
  else ("#000000", "#FFFFFF", "#FFFFFF")

/-- Lines 230-288: the per-image body of the loop in `add_text_label`.
A raised `ValueError` from `hex_to_rgba` propagates, hence the `Option`
chaining; with the colour-scheme constants it never fires. -/
def processImage (lib : RasterLib) (font : Font) (text text_align placement : String)
    (edge_offset padding corner_radius : ℤ) (stroke_width : ℕ)
    (text_color bg_color stroke_color : String) (background_opacity : ℕ)
    (height width : ℕ) (t : ℕ → ℕ → ℕ → ℚ) : Option (ℕ → ℕ → ℕ → ℚ) :=
  let pil_image := convertRGBA (tensor_to_pil t)
  let bbox := get_text_bbox lib text font
  let left := bbox.1
  let top := bbox.2.1
  let right := bbox.2.2.1
  let bottom := bbox.2.2.2
  let text_width := right - left
  let text_height := bottom - top
  let box_width := text_width + padding * 2
  let box_height := text_height + padding * 2
  let pos := calculate_position (width : ℤ) (height : ℤ) box_width box_height
    placement edge_offset
  let x := pos.1
  let y := pos.2
  let overlay : PixMap := fun _ _ _ => (0 : Fin 256)
  let radius := max 0 (min corner_radius ((min box_width box_height).fdiv 2))
  (hex_to_rgba bg_color ((background_opacity : ℚ) / 255)).bind fun fill =>
  let overlay2 := lib.roundedRectangle (x, y, x + box_width, y + box_height) radius
    fill overlay
  let composited := lib.alphaComposite pil_image overlay2
  let center_x : ℚ := (x : ℚ) + (box_width : ℚ) / 2
  let center_y : ℚ := (y : ℚ) + (box_height : ℚ) / 2
  let text_x := ratTrunc (center_x - (text_width : ℚ) / 2 - (left : ℚ))
  let text_y := ratTrunc (center_y - (text_height : ℚ) / 2 - (top : ℚ))
  (hex_to_rgba text_color 1).bind fun text_fill =>
  (hex_to_rgba stroke_color 1).bind fun stroke_fill =>
  let final := lib.multilineText (text_x, text_y) text font text_fill text_align
    stroke_width stroke_fill composited
  some (pil_to_tensor (convertRGB final))

/-- Lines 228-229 and 288: `output_images = []` plus
`for i in range(image.shape[0]): ... output_images.append(...)`. -/
def processAll {α : Type} (f : ℕ → Option α) : ℕ → Option (List α)
  | 0 => some []
  | n + 1 =>
      (processAll f n).bind fun output_images =>
      (f n).bind fun img =>
      some (output_images ++ [img])

/-- Lines 196-290: `TextLabel.add_text_label`.  The input is a 4-d batch
(the `image.dim() == 3` unsqueeze is the host convention for a single
image); `torch.stack(output_images, dim=0)` rebuilds the output batch. -/
def add_text_label (lib : RasterLib) (env : FontEnv) (image : Batch) (text : String)
    (font_family : String) (font_size : ℕ) (text_align placement : String)
    (edge_offset : ℤ) (color_scheme : String) (padding corner_radius : ℤ)
    (stroke_width background_opacity : ℕ) : Option Batch :=
  (processAll (fun i =>
      processImage lib (load_font lib.truetype env font_family font_size) text
        text_align placement edge_offset padding corner_radius stroke_width
        (schemeColors color_scheme).1 (schemeColors color_scheme).2.1
        (schemeColors color_scheme).2.2 background_opacity
        image.h image.w (fun y x k => image.pix i y x k)) image.n).bind
    fun output_images =>
  some { n := image.n, h := image.h, w := image.w, c := 3,
         pix := fun i y x k => ((output_images[i]?).map fun m => m y x k).getD 0 }

/-! ### Lemmas for the label renderer -/

lemma hex_white (alpha : ℚ) :
    hex_to_rgba "#FFFFFF" alpha = some (255, 255, 255, alphaValue alpha) := by
  rw [hex_to_rgba_six "#FFFFFF" alpha 'F' 'F' 'F' 'F' 'F' 'F' 15 15 15 15 15 15
    (by decide) (by decide) (by decide) (by decide) (by decide) (by decide) (by decide)]
  norm_num

lemma hex_black (alpha : ℚ) :
    hex_to_rgba "#000000" alpha = some (0, 0, 0, alphaValue alpha) := by
  rw [hex_to_rgba_six "#000000" alpha '0' '0' '0' '0' '0' '0' 0 0 0 0 0 0
    (by decide) (by decide) (by decide) (by decide) (by decide) (by decide) (by decide)]
  norm_num

lemma schemeColors_hex (color_scheme : String) (alpha beta gamma : ℚ) :
    (hex_to_rgba (schemeColors color_scheme).1 alpha).isSome ∧
    (hex_to_rgba (schemeColors color_scheme).2.1 beta).isSome ∧
    (hex_to_rgba (schemeColors color_scheme).2.2 gamma).isSome := by
  unfold schemeColors
  split
  · exact ⟨by rw [hex_white]; rfl, by rw [hex_black]; rfl, by rw [hex_black]; rfl⟩
  · exact ⟨by rw [hex_black]; rfl, by rw [hex_white]; rfl, by rw [hex_white]; rfl⟩

lemma processImage_isSome (lib : RasterLib) (font : Font)
    (text text_align placement : String)
    (edge_offset padding corner_radius : ℤ) (stroke_width : ℕ)
    (text_color bg_color stroke_color : String) (background_opacity : ℕ)
    (height width : ℕ) (t : ℕ → ℕ → ℕ → ℚ)
    (h1 : (hex_to_rgba bg_color ((background_opacity : ℚ) / 255)).isSome)
    (h2 : (hex_to_rgba text_color 1).isSome)
    (h3 : (hex_to_rgba stroke_color 1).isSome) :
    (processImage lib font text text_align placement edge_offset padding corner_radius
      stroke_width text_color bg_color stroke_color background_opacity
      height width t).isSome := by
  obtain ⟨c1, hc1⟩ := Option.isSome_iff_exists.mp h1
  obtain ⟨c2, hc2⟩ := Option.isSome_iff_exists.mp h2
  obtain ⟨c3, hc3⟩ := Option.isSome_iff_exists.mp h3
  unfold processImage
  simp [hc1, hc2, hc3]

lemma processImage_shape (lib : RasterLib) (font : Font)
    (text text_align placement : String)
    (edge_offset padding corner_radius : ℤ) (stroke_width : ℕ)
    (text_color bg_color stroke_color : String) (background_opacity : ℕ)
    (height width : ℕ) (t : ℕ → ℕ → ℕ → ℚ) (m : ℕ → ℕ → ℕ → ℚ)
    (hm : processImage lib font text text_align placement edge_offset padding
      corner_radius stroke_width text_color bg_color stroke_color background_opacity
      height width t = some m) :
    ∃ pm : PixMap, m = pil_to_tensor (convertRGB pm) := by
  unfold processImage at hm
  cases hc1 : hex_to_rgba bg_color ((background_opacity : ℚ) / 255) with
  | none => rw [hc1] at hm; simp at hm
  | some c1 =>
    rw [hc1] at hm
    cases hc2 : hex_to_rgba text_color 1 with
    | none => rw [hc2] at hm; simp at hm
    | some c2 =>
      rw [hc2] at hm
      cases hc3 : hex_to_rgba stroke_color 1 with
      | none => rw [hc3] at hm; simp at hm
      | some c3 =>
        rw [hc3] at hm
        simp only [Option.some_bind, Option.some_inj] at hm
        exact ⟨_, hm.symm⟩

lemma pil_to_tensor_bounds (pm : PixMap) (y x k : ℕ) :
    0 ≤ pil_to_tensor pm y x k ∧ pil_to_tensor pm y x k ≤ 1 := by
  unfold pil_to_tensor
  constructor
  · positivity
  · rw [div_le_one (by norm_num)]
    have h := (pm y x k).isLt
    exact_mod_cast Nat.le_of_lt_succ h

lemma processAll_isSome {α : Type} (f : ℕ → Option α) (n : ℕ)
    (h : ∀ i, i < n → (f i).isSome) :
    ∃ l, processAll f n = some l ∧ l.length = n ∧ ∀ i, i < n → l[i]? = f i := by
  induction n with
  | zero => exact ⟨[], rfl, rfl, fun i hi => absurd hi (by omega)⟩
  | succ m ih =>
    obtain ⟨l, hl, hlen, hget⟩ := ih (fun i hi => h i (by omega))
    obtain ⟨v, hv⟩ := Option.isSome_iff_exists.mp (h m (by omega))
    refine ⟨l ++ [v], ?_, by simp [hlen], ?_⟩
    · unfold processAll
      rw [hl, hv]
      rfl
    · intro i hi
      rcases Nat.lt_or_ge i m with him | him
      · rw [List.getElem?_append, if_pos (by omega)]
        exact hget i him
      · have hieq : i = m := by omega
        subst hieq
        have hc : (l ++ [v])[i]? = some v := by
          rw [← hlen]
          exact List.getElem?_concat_length l v
        rw [hc, hv]

lemma processAll_mem {α : Type} (f : ℕ → Option α) :
    ∀ (n : ℕ) (l : List α), processAll f n = some l →
      ∀ x ∈ l, ∃ i, i < n ∧ f i = some x := by
  intro n
  induction n with
  | zero =>
    intro l hl x hx
    unfold processAll at hl
    obtain rfl := Option.some_inj.mp hl.symm
    simp at hx
  | succ m ih =>
    intro l hl x hx
    unfold processAll at hl
    cases hpm : processAll f m with
    | none => rw [hpm] at hl; simp at hl
    | some xs =>
      rw [hpm] at hl
      cases hfm : f m with
      | none => rw [hfm] at hl; simp at hl
      | some xi =>
        rw [hfm] at hl
        simp only [Option.some_bind, Option.some_inj] at hl
        subst hl
        rcases List.mem_append.mp hx with hx1 | hx2
        · obtain ⟨i, hi, hfi⟩ := ih xs hpm x hx1
          exact ⟨i, by omega, hfi⟩
        · simp only [List.mem_singleton] at hx2
          subst hx2
          exact ⟨m, by omega, hfm⟩

/-- Claim C9: the label renderer always succeeds (the internal colour
constants always resolve), returns a batch of the same size, height and
width as the input, and derives output image `i` from input image `i` alone
(the per-image pipeline `processImage` applied to the pixel function of
image `i`), in order. -/
theorem C9_label_batch (lib : RasterLib) (env : FontEnv) (image : Batch)
    (text font_family : String) (font_size : ℕ) (text_align placement : String)
    (edge_offset : ℤ) (color_scheme : String) (padding corner_radius : ℤ)
    (stroke_width background_opacity : ℕ) :
    ∃ out, add_text_label lib env image text font_family font_size text_align placement
        edge_offset color_scheme padding corner_radius stroke_width background_opacity =
        some out ∧
      out.n = image.n ∧ out.h = image.h ∧ out.w = image.w ∧
      ∀ i, i < image.n → ∃ m,
        processImage lib (load_font lib.truetype env font_family font_size) text
            text_align placement edge_offset padding corner_radius stroke_width
            (schemeColors color_scheme).1 (schemeColors color_scheme).2.1
            (schemeColors color_scheme).2.2 background_opacity
            image.h image.w (fun y x k => image.pix i y x k) = some m ∧
          ∀ y x k, out.pix i y x k = m y x k := by
  obtain ⟨hhex1, hhex2, hhex3⟩ := schemeColors_hex color_scheme
    1 ((background_opacity : ℚ) / 255) 1
  have hsome : ∀ i, i < image.n →
      (processImage lib (load_font lib.truetype env font_family font_size) text
        text_align placement edge_offset padding corner_radius stroke_width
        (schemeColors color_scheme).1 (schemeColors color_scheme).2.1
        (schemeColors color_scheme).2.2 background_opacity
        image.h image.w (fun y x k => image.pix i y x k)).isSome := by
    intro i _
    exact processImage_isSome _ _ _ _ _ _ _ _ _ _ _ _ _ _ _ _ hhex2 hhex1 hhex3
  obtain ⟨l, hl, hlen, hget⟩ := processAll_isSome _ image.n hsome
  have hsome2 : (add_text_label lib env image text font_family font_size text_align
      placement edge_offset color_scheme padding corner_radius stroke_width
      background_opacity).isSome := by
    unfold add_text_label
    rw [hl]
    rfl
  obtain ⟨out, hout⟩ := Option.isSome_iff_exists.mp hsome2
  have hout2 := hout
  unfold add_text_label at hout2
  rw [hl] at hout2
  simp only [Option.some_bind, Option.some_inj] at hout2
  subst hout2
  refine ⟨_, hout, rfl, rfl, rfl, ?_⟩
  intro i hi
  obtain ⟨m, hm⟩ := Option.isSome_iff_exists.mp (hsome i hi)
  refine ⟨m, hm, ?_⟩
  intro y x k
  have hfi2 : l[i]? = some m := by
    rw [hget i hi]
    exact hm
  show ((l[i]?).map fun mf => mf y x k).getD 0 = m y x k
  rw [hfi2]
  rfl

/-- Claim C10: every pixel sample of the batch returned by the label
renderer lies in `[0, 1]` (the conversion back divides uint8 samples by
255), and the tensor-to-image conversion clamps out-of-range inputs rather
than wrapping them: samples at least 1 map to byte 255, samples at most 0
map to byte 0. -/
theorem C10_output_range (lib : RasterLib) (env : FontEnv) (image : Batch)
    (text font_family : String) (font_size : ℕ) (text_align placement : String)
    (edge_offset : ℤ) (color_scheme : String) (padding corner_radius : ℤ)
    (stroke_width background_opacity : ℕ) (out : Batch)
    (hout : add_text_label lib env image text font_family font_size text_align placement
      edge_offset color_scheme padding corner_radius stroke_width background_opacity =
      some out) :
    (∀ i y x k, 0 ≤ out.pix i y x k ∧ out.pix i y x k ≤ 1) ∧
    (∀ v : ℚ, 1 ≤ v → toByte v = (255 : Fin 256)) ∧
    (∀ v : ℚ, v ≤ 0 → toByte v = (0 : Fin 256)) := by
  refine ⟨?_, ?_, ?_⟩
  · intro i y x k
    unfold add_text_label at hout
    cases hpa : processAll (fun i =>
        processImage lib (load_font lib.truetype env font_family font_size) text
          text_align placement edge_offset padding corner_radius stroke_width
          (schemeColors color_scheme).1 (schemeColors color_scheme).2.1
          (schemeColors color_scheme).2.2 background_opacity
          image.h image.w (fun y x k => image.pix i y x k)) image.n with
    | none => rw [hpa] at hout; simp at hout
    | some l =>
      rw [hpa] at hout
      simp only [Option.some_bind, Option.some_inj] at hout
      subst hout
      show 0 ≤ ((l[i]?).map fun m => m y x k).getD 0 ∧
        ((l[i]?).map fun m => m y x k).getD 0 ≤ 1
      cases hli : l[i]? with
      | none => simp
      | some m =>
        simp only [Option.map_some', Option.getD_some]
        have hmem : m ∈ l := by
          have hlt : i < l.length := by
            by_contra hc
            rw [List.getElem?_eq_none (by omega)] at hli
            exact Option.noConfusion hli
          rw [List.getElem?_eq_getElem hlt] at hli
          exact (Option.some_inj.mp hli) ▸ List.getElem_mem hlt
        obtain ⟨j, _, hfj⟩ := processAll_mem _ image.n l hpa m hmem
        obtain ⟨pm, hpm⟩ := processImage_shape _ _ _ _ _ _ _ _ _ _ _ _ _ _ _ _ _ hfj
        rw [hpm]
        exact pil_to_tensor_bounds _ y x k
  · intro v hv
    have hc : clamp01 v = 1 := by
      unfold clamp01
      rw [max_eq_left (by linarith), min_eq_right hv]
    have hb : roundClampByte v = 255 := by
      unfold roundClampByte
      rw [hc]
      unfold roundHalfEven
      norm_num
    apply Fin.ext
    show (roundClampByte v).toNat = 255 % 256
    rw [hb]
    decide
  · intro v hv
    have hc : clamp01 v = 0 := by
      unfold clamp01
      rw [max_eq_right hv, min_eq_left (by norm_num)]
    have hb : roundClampByte v = 0 := by
      unfold roundClampByte
      rw [hc]
      unfold roundHalfEven
      norm_num
    apply Fin.ext
    show (roundClampByte v).toNat = 0 % 256
    rw [hb]
    decide

/-- A concrete raster library for witness instances: measurement always
falls back, drawing is the identity on pixel maps, no font file loads. -/
def testLib : RasterLib :=
  { textBBox := fun _ _ => none,
    textLength := fun _ _ => 0,
    roundedRectangle := fun _ _ _ pm => pm,
    multilineText := fun _ _ _ _ _ _ _ pm => pm,
    alphaComposite := fun _ overlay => overlay,
    truetype := fun _ _ => none }

def testEnv : FontEnv := { moduleDir := "/nodes", isLinux := false, home := "/home/user" }

def testImage : Batch := torchZeros 1 1 1 3

theorem C9_label_batch_witness :
    ∃ out, add_text_label testLib testEnv testImage "A" "Arial" 30 "left" "top_left" 25
        "white_on_black" 18 15 1 0 = some out ∧
      out.n = testImage.n ∧ out.h = testImage.h ∧ out.w = testImage.w ∧
      ∀ i, i < testImage.n → ∃ m,
        processImage testLib (load_font testLib.truetype testEnv "Arial" 30) "A"
            "left" "top_left" 25 18 15 1
            (schemeColors "white_on_black").1 (schemeColors "white_on_black").2.1
            (schemeColors "white_on_black").2.2 0
            testImage.h testImage.w (fun y x k => testImage.pix i y x k) = some m ∧
          ∀ y x k, out.pix i y x k = m y x k :=
  C9_label_batch testLib testEnv testImage "A" "Arial" 30 "left" "top_left" 25
    "white_on_black" 18 15 1 0

theorem C10_output_range_witness :
    (∀ i y x k,
      0 ≤ ((add_text_label testLib testEnv testImage "A" "Arial" 30 "left" "top_left" 25
          "white_on_black" 18 15 1 0).getD (torchZeros 0 0 0 0)).pix i y x k ∧
      ((add_text_label testLib testEnv testImage "A" "Arial" 30 "left" "top_left" 25
          "white_on_black" 18 15 1 0).getD (torchZeros 0 0 0 0)).pix i y x k ≤ 1) ∧
    (∀ v : ℚ, 1 ≤ v → toByte v = (255 : Fin 256)) ∧
    (∀ v : ℚ, v ≤ 0 → toByte v = (0 : Fin 256)) :=
  C10_output_range testLib testEnv testImage "A" "Arial" 30 "left" "top_left" 25
    "white_on_black" 18 15 1 0
    ((add_text_label testLib testEnv testImage "A" "Arial" 30 "left" "top_left" 25
      "white_on_black" 18 15 1 0).getD (torchZeros 0 0 0 0)) rfl

end NodePack
